import Mathlib

/-!
Verification development for the document-chat RAG backend.

The Python sources are shallowly embedded: strings are `List Char`,
floating-point scores are `ℚ`, fallible collaborator calls (vector store,
keyword store, LLM endpoint) are `Except`/`Option` valued parameters, and
each embedded function mirrors one Python function of the backend.
Python `str` operations are modelled over ASCII (Python word characters
and whitespace beyond ASCII are out of scope of the model).
-/

/-- Model of the Python substring operator `needle in haystack`. -/
def py_contains (needle : List Char) : List Char → Bool
  | [] => needle.isPrefixOf []
  | c :: cs => needle.isPrefixOf (c :: cs) || py_contains needle cs

/-- Model of Python `str.lower()` (ASCII case folding). -/
def py_lower (l : List Char) : List Char := l.map Char.toLower

/-- Worker for `py_split`; `acc` holds the current word reversed. -/
def py_split_go (acc : List Char) : List Char → List (List Char)
  | [] => if acc.isEmpty then [] else [acc.reverse]
  | c :: cs =>
    if c.isWhitespace then
      if acc.isEmpty then py_split_go [] cs else acc.reverse :: py_split_go [] cs
    else
      py_split_go (c :: acc) cs

/-- Model of Python `str.split()` with no argument: split on whitespace
runs, discarding empty pieces. -/
def py_split (l : List Char) : List (List Char) := py_split_go [] l

/-- Model of Python `str.strip()`: drop whitespace from both ends. -/
def py_strip (l : List Char) : List Char :=
  (((l.dropWhile Char.isWhitespace).reverse).dropWhile Char.isWhitespace).reverse

/-- Model of the Python regex word character class `\w` (ASCII part):
letters, digits and underscore. -/
def is_word_char (c : Char) : Bool := c.isAlphanum || c == '_'

/-- Token-level model of the `COMMON_FIXES` table of
`app/services/query_utils.py`.  Each pattern in that table is of the form
`\b...\b` and therefore matches exactly a whole maximal word-character run
of the subject string, case-insensitively:
`intenship`/`intership` are rewritten to `internship`, and the pattern
`\bproj(?:ect)?s?\b` rewrites any of `proj`, `projs`, `project`,
`projects` to `project`. -/
def fix_word (w : List Char) : List Char :=
  if w.map Char.toLower = "intenship".data then "internship".data
  else if w.map Char.toLower = "intership".data then "internship".data
  else if w.map Char.toLower = "proj".data ∨ w.map Char.toLower = "projs".data ∨
      w.map Char.toLower = "project".data ∨ w.map Char.toLower = "projects".data then
    "project".data
  else w

/-- Fuelled worker applying `fix_word` to every maximal word-character run
of the string, keeping every other character.  The fuel is always called
with at least the length of the list, so the `0, l => l` arm is never
reached; fuel makes the recursion structural so that concrete inputs
evaluate inside the kernel. -/
def apply_fixes_go : Nat → List Char → List Char
  | _, [] => []
  | 0, l => l
  | fuel + 1, c :: cs =>
    if is_word_char c then
      fix_word (c :: cs.takeWhile is_word_char) ++
        apply_fixes_go fuel (cs.dropWhile is_word_char)
    else
      c :: apply_fixes_go fuel cs

/-- Sequential application of the `COMMON_FIXES` substitutions.  Because
the three replacement words consist of word characters only, never match
another pattern of the table, and the patterns match whole word runs, the
three sequential `re.sub` passes coincide with one simultaneous
token-wise pass, which is what this function performs. -/
def apply_fixes (l : List Char) : List Char := apply_fixes_go l.length l

/-- Model of `normalize_query` of `app/services/query_utils.py`:
strip surrounding whitespace, then apply the `COMMON_FIXES` table. -/
def normalize_query (q : List Char) : List Char := apply_fixes (py_strip q)

/-! Data model shared by the retrieval pipeline.  A `ChunkResult` mirrors
the result dictionaries produced by `search_documents` of
`app/services/document_service.py` (fields `text`, `document_id`,
`page_number`, `score`, `filename`, `section`); the dictionary keys are
modelled as always present. -/

structure ChunkResult where
  text : List Char
  document_id : List Char
  page_number : Nat
  score : ℚ
  filename : List Char
  section_label : List Char
deriving DecidableEq

/-- Citation dictionaries built by the `/document-chat/chat` endpoint. -/
structure Citation where
  source_id : List Char
  title : List Char
  content : List Char
  confidence : ℚ
  page_number : Nat
  course_id : List Char
deriving DecidableEq

/-- Distinguishable failure kinds of the generative-model collaborator
(`RateLimitError`, `AuthenticationError`, `APIError` of
`app/services/openrouter_service.py`), each carrying its message text. -/
inductive GenError where
  | rate_limit (msg : List Char)
  | auth (msg : List Char)
  | api (msg : List Char)

/-- Stable insertion step for a descending sort by `key`: an element moves
left past exactly the elements with strictly smaller key, so elements with
equal keys keep their original relative order. -/
def insert_desc {α : Type} (key : α → ℚ) (x : α) : List α → List α
  | [] => [x]
  | y :: ys => if key y ≤ key x then x :: y :: ys else y :: insert_desc key x ys

/-- Model of Python `sorted(l, key=key, reverse=True)`: a stable sort,
descending by `key`.  Python guarantees stability for `sorted` and
`list.sort`, and any two stable descending sorts agree, so insertion sort
is a faithful model. -/
def sorted_desc {α : Type} (key : α → ℚ) : List α → List α
  | [] => []
  | x :: xs => insert_desc key x (sorted_desc key xs)

/-- Model of the query rewriting of lines 28-40 of
`app/api/endpoints/document_chat.py`: an `if/elif` chain on the lowercased
normalized query that replaces certain question shapes by short keyword
queries.  `query_lower` is inlined as `py_lower q`. -/
def preprocess_query (q : List Char) : List Char :=
  if py_contains "what is the".data (py_lower q) && py_contains "score".data (py_lower q) then
    if py_contains "aws".data (py_lower q) then "AWS score".data
    else if py_contains "cgpa".data (py_lower q) then "CGPA".data
    else if py_contains "leetcode".data (py_lower q) then "Leetcode rating".data
    else q
  else if py_contains "what is".data (py_lower q) && py_contains "certificate".data (py_lower q) then
    "certificates".data
  else if py_contains "what is".data (py_lower q) && py_contains "linkedin".data (py_lower q) then
    "LinkedIn".data
  else if py_contains "what is".data (py_lower q) && py_contains "project".data (py_lower q) then
    "projects".data
  else q

/-- Full query preprocessing of the endpoint: `normalize_query` followed by
the pattern rewriting. -/
def process_query (raw : List Char) : List Char := preprocess_query (normalize_query raw)

/-- Model of `request.top_k or 5`: `None` and `0` are falsy in Python, so
a missing or zero requested result count becomes 5. -/
def effective_top_k (top_k : Nat) : Nat := if top_k = 0 then 5 else top_k

/-- Intent bonus `_bonus` of the endpoint (lines 71-84): computed from the
lowercased processed query `ql` and the lowercased candidate text. -/
def chat_bonus (ql : List Char) (r : ChunkResult) : ℚ :=
  (if py_contains "project".data ql && py_contains "project".data (py_lower r.text) then (0.2 : ℚ) else 0)
  - (if py_contains "project".data ql && py_contains "internship".data (py_lower r.text) then (0.1 : ℚ) else 0)
  + (if py_contains "internship".data ql && py_contains "internship".data (py_lower r.text) then (0.2 : ℚ) else 0)
  - (if py_contains "internship".data ql && py_contains "project".data (py_lower r.text) then (0.1 : ℚ) else 0)

/-- Adjusted ranking key of the endpoint rerank: `score + _bonus`. -/
def chat_adjusted (ql : List Char) (r : ChunkResult) : ℚ := r.score + chat_bonus ql r

/-- The `relevant_results` of the endpoint: the top-k slice of the search
results, stably re-sorted by `score + _bonus` descending. -/
def relevant_results (q : List Char) (search_results : List ChunkResult) (top_k : Nat) :
    List ChunkResult :=
  sorted_desc (chat_adjusted (py_lower q)) (search_results.take (effective_top_k top_k))

/-- General-knowledge indicator phrases of lines 89-92 of the endpoint. -/
def general_knowledge_indicators : List (List Char) :=
  ["what is".data, "define".data, "explain".data, "how to cook".data, "capital of".data,
   "general knowledge".data, "common knowledge".data, "everyone knows".data]

/-- Lines 95: the query counts as a general-knowledge query when any
indicator phrase occurs in the lowercased query. -/
def is_general_knowledge_query (ql : List Char) : Bool :=
  general_knowledge_indicators.any (fun ind => py_contains ind ql)

/-- Model of Python `" ".join(l)`. -/
def join_space : List (List Char) → List Char
  | [] => []
  | [x] => x
  | x :: y :: rest => x ++ " ".data ++ join_space (y :: rest)

/-- Model of Python `"\n\n".join(l)`. -/
def join_blank_line : List (List Char) → List Char
  | [] => []
  | [x] => x
  | x :: y :: rest => x ++ "\n\n".data ++ join_blank_line (y :: rest)

/-- Line 99 of the endpoint: the lowercased concatenation (with spaces) of
the retained passages. -/
def document_content (q : List Char) (search_results : List ChunkResult) (top_k : Nat) :
    List Char :=
  py_lower (join_space ((relevant_results q search_results top_k).map (·.text)))

/-- Line 100: does any whitespace-separated word of the lowercased query
occur in `document_content`? -/
def any_query_word_in_content (q : List Char) (search_results : List ChunkResult)
    (top_k : Nat) : Bool :=
  (py_split (py_lower q)).any (fun w => py_contains w (document_content q search_results top_k))

/-- Combined out-of-corpus condition of lines 95-100: a general-knowledge
query none of whose words occurs in the retained passage text. -/
def out_of_corpus (q : List Char) (search_results : List ChunkResult) (top_k : Nat) : Bool :=
  is_general_knowledge_query (py_lower q) && !any_query_word_in_content q search_results top_k

/-- Serialized source block of lines 116-122 of the endpoint:
`"Source {i} (from {filename}, page {page_number}, relevance: {score:.2f}):\n{text}"`.
The two-decimal float formatting of the relevance score is abstracted as
the parameter `fmt_score`. -/
def source_block (fmt_score : ℚ → List Char) (i : Nat) (r : ChunkResult) : List Char :=
  "Source ".data ++ Nat.toDigits 10 i ++ " (from ".data ++ r.filename ++ ", page ".data
    ++ Nat.toDigits 10 r.page_number ++ ", relevance: ".data ++ fmt_score r.score
    ++ "):\n".data ++ r.text

/-- Context-assembly loop of lines 113-130 of the endpoint: walk the
ranked results with a running total; `break` (modelled as returning `[]`)
as soon as the next serialized block would push the total over the budget,
dropping that block and everything after it. -/
def context_go (fmt_score : ℚ → List Char) (max_len : Nat) :
    Nat → Nat → List ChunkResult → List (List Char)
  | _, _, [] => []
  | i, total, r :: rest =>
    if total + (source_block fmt_score i r).length > max_len then []
    else source_block fmt_score i r :: context_go fmt_score max_len (i + 1)
      (total + (source_block fmt_score i r).length) rest

/-- The `context_parts` list of the endpoint (enumeration starts at 1,
running total starts at 0). -/
def context_parts (fmt_score : ℚ → List Char) (max_len : Nat) (rs : List ChunkResult) :
    List (List Char) :=
  context_go fmt_score max_len 1 0 rs

/-- Line 132: the assembled context string. -/
def build_context (fmt_score : ℚ → List Char) (max_len : Nat) (rs : List ChunkResult) :
    List Char :=
  join_blank_line (context_parts fmt_score max_len rs)

/-- Fixed no-context answer of line 62 of the endpoint. -/
def no_context_answer (q : List Char) : List Char :=
  "I couldn\x27t find any relevant information about \x27".data ++ q ++
    "\x27 in the uploaded documents. Please try asking a different question or check if the relevant document has been uploaded correctly.".data

/-- Fixed out-of-corpus answer of line 101 of the endpoint. -/
def general_knowledge_answer (q : List Char) : List Char :=
  "I couldn\x27t find specific information about \x27".data ++ q ++
    "\x27 in the uploaded documents. This appears to be a general knowledge question, but I can only answer based on the content in your uploaded documents.".data

/-- User-facing apology strings of lines 169-185 of the endpoint, one per
generator failure kind. -/
def gen_error_answer : GenError → List Char
  | .rate_limit m =>
    "I\x27m sorry, but I\x27ve reached my daily limit for free AI responses. ".data ++ m ++
      ". Please try again tomorrow or consider upgrading your API plan.".data
  | .auth m =>
    "Authentication error: ".data ++ m ++ ". Please check the API configuration.".data
  | .api m =>
    "I\x27m experiencing technical difficulties: ".data ++ m ++ ". Please try again later.".data

/-- Citation truncation of line 196: `text[:200] + "..."` when the text is
longer than 200 characters. -/
def truncate_200 (t : List Char) : List Char :=
  if t.length > 200 then t.take 200 ++ "...".data else t

/-- Citation dictionaries of lines 192-200 of the endpoint. -/
def mk_citations (rs : List ChunkResult) : List Citation :=
  rs.map (fun r =>
    { source_id := r.document_id
      title := r.filename
      content := truncate_200 r.text
      confidence := r.score
      page_number := r.page_number
      course_id := r.document_id })

/-- Response triple of the endpoint: the answer text, the citation list,
and whether the generative model was invoked for the request. -/
structure ChatResponse where
  answer : List Char
  citations : List Citation
  llm_called : Bool
deriving DecidableEq

/-- Model of `document_chat_answer` of
`app/api/endpoints/document_chat.py` (the `/document-chat/chat` endpoint).

The raw query is normalized and rewritten; `search_results` stands for the
outcome of `document_service.search_documents` on the processed query, and
`gen` for `openrouter_service.chat_completion` on the assembled prompt
(returning the answer text or a distinguishable failure kind).

With zero search results the fixed no-context answer is returned with no
citations and no generator call.  Otherwise the code computes the
general-knowledge check of lines 95-109, but because that branch leaves
`response = None` (its initial value), the `if response is None` guard of
line 111 is still taken afterwards, so the pipeline always builds the
context and calls the generator, overwriting any general-knowledge answer;
the check therefore has no effect on the returned response, and the
citations come from `relevant_results` (falling back to `search_results`
when the top-k slice is empty). -/
def document_chat_answer (fmt_score : ℚ → List Char)
    (gen : List Char → Except GenError (List Char)) (raw_query : List Char)
    (search_results : List ChunkResult) (top_k max_context_length : Nat) : ChatResponse :=
  let q := process_query raw_query
  if search_results.isEmpty then
    { answer := no_context_answer q, citations := [], llm_called := false }
  else
    let relevant := relevant_results q search_results top_k
    let context := build_context fmt_score max_context_length relevant
    let answer :=
      match gen context with
      | .ok t => t
      | .error e => gen_error_answer e
    let cite_from := if relevant.isEmpty then search_results else relevant
    { answer := answer, citations := mk_citations cite_from, llm_called := true }

/-- Intent bonus of `search_documents` of
`app/services/document_service.py` (lines 209-223): like the endpoint
bonus but also inspecting the section label. -/
def service_bonus (ql : List Char) (r : ChunkResult) : ℚ :=
  (if py_contains "project".data ql &&
      (py_contains "project".data (py_lower r.section_label) || py_contains "project".data (py_lower r.text)) then (0.2 : ℚ) else 0)
  - (if py_contains "project".data ql &&
      (py_contains "internship".data (py_lower r.section_label) || py_contains "internship".data (py_lower r.text)) then (0.1 : ℚ) else 0)
  + (if py_contains "internship".data ql &&
      (py_contains "internship".data (py_lower r.section_label) || py_contains "internship".data (py_lower r.text)) then (0.2 : ℚ) else 0)
  - (if py_contains "internship".data ql &&
      (py_contains "project".data (py_lower r.section_label) || py_contains "project".data (py_lower r.text)) then (0.1 : ℚ) else 0)

/-- Adjusted key of the `search_documents` rerank. -/
def service_adjusted (ql : List Char) (r : ChunkResult) : ℚ := r.score + service_bonus ql r

/-- Model of `_fallback_text_search` of `app/services/document_service.py`.
`db_matches` stands for the outcome of the MongoDB regex aggregation over
the chunk collection (the matched chunk documents, in store order); an
`error` value models any exception of the fallback path, which the
function catches, returning `[]`.  The pipeline sets `score: 0.8` on every
match via `$addFields`, limits the aggregation to `top_k * 2` documents
and reads at most `top_k` of them. -/
def fallback_text_search (db_matches : Except Unit (List ChunkResult)) (top_k : Nat) :
    List ChunkResult :=
  match db_matches with
  | .error _ => []
  | .ok ms => (((ms.map (fun m => { m with score := (0.8 : ℚ) })).take (top_k * 2)).take top_k)

/-- Model of `search_documents` of `app/services/document_service.py`.
`vector` stands for the outcome of the LangChain vector-store call
(lines 189-205, already mapped to result records); an `error` value models
any exception of that path.  A raised or empty vector search falls back to
the regex text search; the function itself is total and never raises. -/
def search_documents (q : List Char) (vector : Except Unit (List ChunkResult))
    (db_matches : Except Unit (List ChunkResult)) (top_k : Nat) : List ChunkResult :=
  match vector with
  | .ok rs =>
    if rs.isEmpty then fallback_text_search db_matches top_k
    else sorted_desc (service_adjusted (py_lower q)) rs
  | .error _ => fallback_text_search db_matches top_k

/-- Sequential clamp of lines 138-141 of
`app/services/lc_vector_store.py`: raise to 0, then cap at 1. -/
def clamp01 (x : ℚ) : ℚ :=
  if (if x < 0 then (0 : ℚ) else x) > 1 then 1 else (if x < 0 then (0 : ℚ) else x)

/-- Score normalization of `similarity_search_with_similarity` of
`app/services/lc_vector_store.py` (lines 128-141) for one numeric raw
score: a score already in `[0, 1]` is kept, any other score is mapped via
`1 / (1 + score)`, and the result is clamped into `[0, 1]`.  At a raw
score of `-1` the Python expression `1.0 / (1.0 + float(score))` raises
`ZeroDivisionError`, modelled as `none`; the surrounding `except` then
abandons the whole native-score path for the rank-based fallback. -/
def normalize_score (raw : ℚ) : Option ℚ :=
  if 0 ≤ raw ∧ raw ≤ 1 then some (clamp01 raw)
  else if 1 + raw = 0 then none
  else some (clamp01 (1 / (1 + raw)))

/-- Normalization of a whole score list; `none` when any element raises,
matching the `try` block around the loop of lines 123-146. -/
def normalize_scores : List ℚ → Option (List ℚ)
  | [] => some []
  | r :: rs =>
    match normalize_score r with
    | none => none
    | some s =>
      match normalize_scores rs with
      | none => none
      | some ss => some (s :: ss)

/-- Text-score normalization of `fallback_text_search` of
`app/services/vector_search.py` (line 177): a positive MongoDB text score
`raw` becomes `1 - 1 / (1 + raw)`, anything else becomes `0`. -/
def course_text_score (raw : ℚ) : ℚ :=
  if 0 < raw then 1 - 1 / (1 + raw) else 0

/-- Course-content records returned by `search_similar_content` of
`app/services/vector_search.py`. -/
structure CourseResult where
  source_id : List Char
  title : List Char
  content : List Char
  course_id : List Char
  page_number : Nat
  score : ℚ
deriving DecidableEq

/-- Model of Python `str.find`: index of the first occurrence of `needle`,
or `none` where Python returns `-1`. -/
def py_find (needle : List Char) : List Char → Option Nat
  | [] => if needle.isPrefixOf [] then some 0 else none
  | c :: cs =>
    if needle.isPrefixOf (c :: cs) then some 0
    else (py_find needle cs).map (· + 1)

/-- First query word occurring in the lowercased content, with its
position, mirroring the `for word in words` loop of lines 212-224 of
`app/services/vector_search.py` (the loop breaks at the first hit). -/
def first_word_match (ws : List (List Char)) (content_lower : List Char) :
    Option (List Char × Nat) :=
  match ws with
  | [] => none
  | w :: rest =>
    match py_find w content_lower with
    | some pos => some (w, pos)
    | none => first_word_match rest content_lower

/-- Evidence-span extraction of `get_citations_from_results` of
`app/services/vector_search.py` (lines 204-224): default is the first 200
characters (ellipsis-marked when truncated); when some query word occurs
in the content, the span is re-centered on its first occurrence with 50
characters of context on each side, ellipsis-marked on the truncated
sides.  Nat subtraction models Python `max(0, start_pos - 50)`. -/
def excerpt (query content : List Char) : List Char :=
  match first_word_match (py_split (py_lower query)) (py_lower content) with
  | none => if content.length > 200 then content.take 200 ++ "...".data else content
  | some (w, pos) =>
    let start := pos - 50
    let stop := min content.length (pos + w.length + 50)
    let span := (content.drop start).take (stop - start)
    let span2 := if 0 < start then "...".data ++ span else span
    if stop < content.length then span2 ++ "...".data else span2

/-- Citation records of `get_citations_from_results` of
`app/services/vector_search.py`. -/
def citations_from_results (results : List CourseResult) (query : List Char) : List Citation :=
  results.map (fun r =>
    { source_id := r.source_id
      title := r.title
      content := excerpt query r.content
      confidence := r.score
      page_number := r.page_number
      course_id := r.course_id })

/-- Response triple of `search_and_generate_answer`. -/
structure SynthResponse where
  answer : List Char
  citations : List Citation
  llm_called : Bool
deriving DecidableEq

/-- Model of `search_and_generate_answer` of
`app/services/vector_search.py` (lines 238-313).  `search_results` stands
for the outcome of `search_similar_content`, and `gen` for the successful
chat completion on the assembled prompt.  With zero results the fixed
no-context answer is returned with empty citations and no generator
call; otherwise the context is assembled and the generator invoked. -/
def search_and_generate_answer (gen : List Char → List Char) (query : List Char)
    (search_results : List CourseResult) : SynthResponse :=
  if search_results.isEmpty then
    { answer := "I couldn\x27t find relevant information to answer your question. Please try rephrasing or check if the course content is available.".data
      citations := []
      llm_called := false }
  else
    let context := join_blank_line (search_results.map
      (fun r => "Title: ".data ++ r.title ++ "\nContent: ".data ++ r.content))
    { answer := gen context
      citations := citations_from_results search_results query
      llm_called := true }

/-- Cache key of `_generate_cache_key` of `app/services/cache_service.py`:
the MD5 of the sorted JSON serialization of the lowercased stripped query,
the document id (possibly null) and the result count.  Hashing and JSON
serialization are injective up to MD5 collisions and are modelled by the
hashed content triple itself. -/
def cache_key (query : List Char) (document_id : Option (List Char)) (top_k : Nat) :
    List Char × Option (List Char) × Nat :=
  (py_strip (py_lower query), document_id, top_k)

/-- One cache entry: the stored payload with its creation timestamp
(`time.time()` modelled as a rational number of seconds). -/
structure CacheEntry (π : Type) where
  payload : π
  timestamp : ℚ

/-- State of `CacheService`: the entry table (a Python dict, modelled as
an association list with unique keys), the TTL and the enable switch. -/
structure CacheServiceState (π : Type) where
  cache : List ((List Char × Option (List Char) × Nat) × CacheEntry π)
  cache_ttl : ℚ
  enabled : Bool

/-- Dict lookup `self.cache.get(key)`. -/
def cache_lookup {π : Type} (k : List Char × Option (List Char) × Nat) :
    List ((List Char × Option (List Char) × Nat) × CacheEntry π) → Option (CacheEntry π)
  | [] => none
  | (k2, e) :: rest => if k2 = k then some e else cache_lookup k rest

/-- Dict deletion `del self.cache[key]`. -/
def cache_erase {π : Type} (k : List Char × Option (List Char) × Nat)
    (m : List ((List Char × Option (List Char) × Nat) × CacheEntry π)) :
    List ((List Char × Option (List Char) × Nat) × CacheEntry π) :=
  m.filter (fun kv => kv.1 ≠ k)

/-- Dict assignment `self.cache[key] = entry` (insert or overwrite). -/
def cache_insert {π : Type} (k : List Char × Option (List Char) × Nat) (e : CacheEntry π)
    (m : List ((List Char × Option (List Char) × Nat) × CacheEntry π)) :
    List ((List Char × Option (List Char) × Nat) × CacheEntry π) :=
  (k, e) :: cache_erase k m

/-- Model of `CacheService._is_expired`: the entry is expired when the
elapsed time since its timestamp exceeds the TTL. -/
def is_expired {π : Type} (now ttl : ℚ) (e : CacheEntry π) : Bool :=
  decide (now - e.timestamp > ttl)

/-- Model of `CacheService.get_search_results`: absent when disabled,
missing or expired; reading an expired entry deletes it from the table as
a side effect.  Returns the read result together with the state after the
call. -/
def get_search_results {π : Type} (s : CacheServiceState π) (now : ℚ) (query : List Char)
    (document_id : Option (List Char)) (top_k : Nat) : Option π × CacheServiceState π :=
  if !s.enabled then (none, s)
  else
    match cache_lookup (cache_key query document_id top_k) s.cache with
    | some e =>
      if !is_expired now s.cache_ttl e then (some e.payload, s)
      else (none, { s with cache := cache_erase (cache_key query document_id top_k) s.cache })
    | none => (none, s)

/-- Model of `CacheService.set_search_results`: a no-op when disabled,
otherwise stores the payload under the cache key with the current
timestamp, overwriting any previous entry. -/
def set_search_results {π : Type} (s : CacheServiceState π) (now : ℚ) (query : List Char)
    (document_id : Option (List Char)) (top_k : Nat) (payload : π) : CacheServiceState π :=
  if !s.enabled then s
  else { s with cache := cache_insert (cache_key query document_id top_k) ⟨payload, now⟩ s.cache }

/-! Concrete inputs used by the witness and counterexample theorems. -/

/-- Concrete score formatter used in concrete evaluations (the pipeline
treats the formatter as opaque collaborator output). -/
def fixed_fmt : ℚ → List Char := fun _ => "0.00".data

/-- Generator stub returning a fixed successful completion. -/
def fixed_gen : List Char → Except GenError (List Char) := fun _ => .ok "GENERATED ANSWER".data

/-- One retrieved chunk whose text shares no word with the query
`define recursion`. -/
def cooking_chunk : ChunkResult :=
  { text := "Cooking tips for pasta".data
    document_id := "doc1".data
    page_number := 3
    score := 1 / 2
    filename := "cookbook.pdf".data
    section_label := "other".data }

/-- One retrieved chunk whose serialized source block alone exceeds the
default context budget of 4000 characters. -/
def oversized_chunk : ChunkResult :=
  { text := List.replicate 4001 'a'
    document_id := "doc1".data
    page_number := 1
    score := 0
    filename := "resume.pdf".data
    section_label := "other".data }

/-- One chunk matched by the regex fallback search. -/
def fallback_chunk : ChunkResult :=
  { text := "Databases use foreign keys".data
    document_id := "doc2".data
    page_number := 2
    score := 0
    filename := "notes.pdf".data
    section_label := "other".data }

/-- Small cache state over `Nat` payloads with a TTL of 60 seconds. -/
def small_cache_state : CacheServiceState Nat :=
  { cache := [], cache_ttl := 60, enabled := true }

/-! Theorems.  Helper lemmas come first, the claim theorems afterwards. -/

theorem insert_desc_mem {α : Type} (key : α → ℚ) (x : α) (l : List α) (z : α) :
    z ∈ insert_desc key x l ↔ z = x ∨ z ∈ l := by
  induction l with
  | nil => simp [insert_desc]
  | cons y ys ih =>
    simp only [insert_desc]
    split_ifs with h
    · simp [or_comm, or_assoc, or_left_comm]
    · simp [ih, or_comm, or_assoc, or_left_comm]

theorem insert_desc_pairwise {α : Type} (key : α → ℚ) (x : α) (l : List α)
    (h : List.Pairwise (fun a b => key b ≤ key a) l) :
    List.Pairwise (fun a b => key b ≤ key a) (insert_desc key x l) := by
  induction l with
  | nil => simp [insert_desc]
  | cons y ys ih =>
    simp only [insert_desc]
    rcases List.pairwise_cons.mp h with ⟨hy, hys⟩
    split_ifs with hle
    · refine List.pairwise_cons.mpr ⟨?_, h⟩
      intro z hz
      rcases List.mem_cons.mp hz with rfl | hz'
      · exact hle
      · exact le_trans (hy z hz') hle
    · refine List.pairwise_cons.mpr ⟨?_, ih hys⟩
      intro z hz
      rcases (insert_desc_mem key x ys z).mp hz with rfl | hz'
      · exact le_of_lt (lt_of_not_ge hle)
      · exact hy z hz'

theorem sorted_desc_pairwise {α : Type} (key : α → ℚ) (l : List α) :
    List.Pairwise (fun a b => key b ≤ key a) (sorted_desc key l) := by
  induction l with
  | nil => simp [sorted_desc]
  | cons x xs ih => exact insert_desc_pairwise key x _ ih

theorem insert_desc_filter {α : Type} (key : α → ℚ) (x : α) (l : List α) (c : ℚ) :
    (insert_desc key x l).filter (fun a => decide (key a = c)) =
      (x :: l).filter (fun a => decide (key a = c)) := by
  induction l with
  | nil => rfl
  | cons y ys ih =>
    simp only [insert_desc]
    split_ifs with hle
    · rfl
    · have hxy : key x < key y := lt_of_not_ge hle
      by_cases hx : key x = c
      · have hy : ¬ key y = c := by intro hy; rw [hx] at hxy; rw [hy] at hxy; exact lt_irrefl c hxy
        simp [List.filter_cons, hx, hy, ih]
      · by_cases hy : key y = c
        · simp [List.filter_cons, hx, hy, ih]
        · simp [List.filter_cons, hx, hy, ih]

theorem sorted_desc_filter {α : Type} (key : α → ℚ) (l : List α) (c : ℚ) :
    (sorted_desc key l).filter (fun a => decide (key a = c)) =
      l.filter (fun a => decide (key a = c)) := by
  induction l with
  | nil => rfl
  | cons x xs ih =>
    simp only [sorted_desc]
    rw [insert_desc_filter]
    by_cases hx : key x = c
    · simp [List.filter_cons, hx, ih]
    · simp [List.filter_cons, hx, ih]

theorem insert_desc_perm {α : Type} (key : α → ℚ) (x : α) (l : List α) :
    List.Perm (insert_desc key x l) (x :: l) := by
  induction l with
  | nil => rfl
  | cons y ys ih =>
    simp only [insert_desc]
    split_ifs with hle
    · rfl
    · exact List.Perm.trans (List.Perm.cons y ih) (List.Perm.swap x y ys)

theorem sorted_desc_perm {α : Type} (key : α → ℚ) (l : List α) :
    List.Perm (sorted_desc key l) l := by
  induction l with
  | nil => rfl
  | cons x xs ih =>
    exact List.Perm.trans (insert_desc_perm key x _) (List.Perm.cons x ih)

theorem sorted_desc_length {α : Type} (key : α → ℚ) (l : List α) :
    (sorted_desc key l).length = l.length :=
  (sorted_desc_perm key l).length_eq

/-- C1: with zero retrieval candidates, both the document-chat endpoint and
the course search-and-answer pipeline return their fixed no-relevant-
information answer with an empty citation list and never invoke the
generative model. -/
theorem claim_C1 :
    (∀ (fmt_score : ℚ → List Char) (gen : List Char → Except GenError (List Char))
      (raw_query : List Char) (top_k max_context_length : Nat),
      document_chat_answer fmt_score gen raw_query [] top_k max_context_length =
        { answer := no_context_answer (process_query raw_query), citations := [],
          llm_called := false })
  ∧ (∀ (gen : List Char → List Char) (query : List Char),
      search_and_generate_answer gen query [] =
        { answer := "I couldn\x27t find relevant information to answer your question. Please try rephrasing or check if the course content is available.".data,
          citations := [], llm_called := false }) := by
  constructor
  · intro fmt_score gen raw_query top_k max_context_length
    rfl
  · intro gen query
    rfl

/-- C3: when the vector-similarity path fails, `search_documents` returns
exactly the result of the keyword/regex fallback search instead of
propagating the error, and when the fallback database call fails as well
the result is the empty list; the embedded function is total, so no
exception ever reaches the caller. -/
theorem claim_C3 :
    (∀ (q : List Char) (db_matches : Except Unit (List ChunkResult)) (top_k : Nat),
      search_documents q (.error ()) db_matches top_k = fallback_text_search db_matches top_k)
  ∧ (∀ (q : List Char) (top_k : Nat),
      search_documents q (.error ()) (.error ()) top_k = []) := by
  constructor
  · intro q db_matches top_k
    rfl
  · intro q top_k
    rfl

/-- C6: after the intent-based adjustment and re-sort, both in the
document-chat endpoint (over the top-k slice) and in
`search_documents` (over a non-empty vector result list), every adjacent
pair of the produced list is non-increasing in `score + adjustment`, and
for every value of the adjusted key the elements carrying that key appear
in the same order as before the re-sort (stability). -/
theorem claim_C6 :
    ∀ (q : List Char) (top_k : Nat) (rs : List ChunkResult) (r0 : ChunkResult)
      (db_matches : Except Unit (List ChunkResult)),
    (List.Chain' (fun a b => chat_adjusted (py_lower q) b ≤ chat_adjusted (py_lower q) a)
        (relevant_results q rs top_k)
      ∧ ∀ c : ℚ,
        (relevant_results q rs top_k).filter (fun x => decide (chat_adjusted (py_lower q) x = c)) =
          (rs.take (effective_top_k top_k)).filter
            (fun x => decide (chat_adjusted (py_lower q) x = c)))
  ∧ (List.Chain' (fun a b => service_adjusted (py_lower q) b ≤ service_adjusted (py_lower q) a)
        (search_documents q (.ok (r0 :: rs)) db_matches top_k)
      ∧ ∀ c : ℚ,
        (search_documents q (.ok (r0 :: rs)) db_matches top_k).filter
            (fun x => decide (service_adjusted (py_lower q) x = c)) =
          (r0 :: rs).filter (fun x => decide (service_adjusted (py_lower q) x = c))) := by
  intro q top_k rs r0 db_matches
  refine ⟨⟨?_, ?_⟩, ?_, ?_⟩
  · exact (sorted_desc_pairwise (chat_adjusted (py_lower q)) _).chain'
  · intro c
    exact sorted_desc_filter (chat_adjusted (py_lower q)) _ c
  · show List.Chain' _ (sorted_desc (service_adjusted (py_lower q)) (r0 :: rs))
    exact (sorted_desc_pairwise (service_adjusted (py_lower q)) _).chain'
  · intro c
    exact sorted_desc_filter (service_adjusted (py_lower q)) _ c

theorem clamp01_of_mem (x : ℚ) (h0 : 0 ≤ x) (h1 : x ≤ 1) : clamp01 x = x := by
  unfold clamp01
  split_ifs <;> linarith

theorem clamp01_nonneg (x : ℚ) : 0 ≤ clamp01 x := by
  unfold clamp01
  split_ifs <;> linarith

theorem clamp01_le_one (x : ℚ) : clamp01 x ≤ 1 := by
  unfold clamp01
  split_ifs <;> linarith

/-- C7 counterexample: at the raw score `-1` the conversion
`1.0 / (1.0 + score)` divides by zero, so no normalized similarity is
produced at all (the `ZeroDivisionError` aborts the whole native-score
loop); the claim promises a normalized similarity in `[0, 1]` for every
numeric raw score. -/
theorem claim_C7_counterexample :
    normalize_score (-1) = none ∧ normalize_scores [-1] = none := by
  have h : normalize_score (-1) = none := by norm_num [normalize_score]
  exact ⟨h, by simp [normalize_scores, h]⟩

/-- C7 (amended): for every raw score other than `-1`, the normalized
similarity exists and lies in `[0, 1]`; a raw score already in `[0, 1]` is
used unchanged, and any other raw score is mapped via `1 / (1 + score)`
and clamped into `[0, 1]`.  At raw score `-1` the Python code raises
`ZeroDivisionError` and the native-score path is abandoned. -/
theorem claim_C7_amended : ∀ raw : ℚ, raw ≠ -1 →
    ∃ sim, normalize_score raw = some sim ∧ 0 ≤ sim ∧ sim ≤ 1 ∧
      ((0 ≤ raw ∧ raw ≤ 1) → sim = raw) ∧
      (¬(0 ≤ raw ∧ raw ≤ 1) → sim = clamp01 (1 / (1 + raw))) := by
  intro raw hne
  have hz : ¬(1 + raw = 0) := by
    intro h
    exact hne (by linarith)
  by_cases hin : 0 ≤ raw ∧ raw ≤ 1
  · refine ⟨raw, ?_, hin.1, hin.2, fun _ => rfl, fun h => absurd hin h⟩
    simp only [normalize_score, if_pos hin]
    rw [clamp01_of_mem raw hin.1 hin.2]
  · refine ⟨clamp01 (1 / (1 + raw)), ?_, clamp01_nonneg _, clamp01_le_one _,
      fun h => absurd h hin, fun _ => rfl⟩
    simp only [normalize_score, if_neg hin, if_neg hz]

/-- Witness for the amended C7 theorem at the raw score 3. -/
theorem claim_C7_witness :
    (3 : ℚ) ≠ -1 ∧
      ∃ sim, normalize_score 3 = some sim ∧ 0 ≤ sim ∧ sim ≤ 1 ∧
        ((0 ≤ (3 : ℚ) ∧ (3 : ℚ) ≤ 1) → sim = 3) ∧
        (¬(0 ≤ (3 : ℚ) ∧ (3 : ℚ) ≤ 1) → sim = clamp01 (1 / (1 + 3))) := by
  have h : (3 : ℚ) ≠ -1 := by norm_num
  exact ⟨h, claim_C7_amended 3 h⟩

/-- C4 counterexample: with a top-ranked passage whose serialized source
block alone exceeds the 4000-character budget, the assembly loop breaks on
its first iteration and the assembled context is empty although a
candidate exists; the claim promises the first passage is always
included. -/
theorem oversized_block_length :
    (source_block fixed_fmt 1 oversized_chunk).length = 4054 := by
  have d1 : Nat.toDigits 10 1 = ['1'] := by decide
  have l1 : ("Source ".data).length = 7 := by decide
  have l2 : (" (from ".data).length = 7 := by decide
  have l3 : (", page ".data).length = 7 := by decide
  have l4 : (", relevance: ".data).length = 13 := by decide
  have l5 : ("0.00".data).length = 4 := by decide
  have l6 : ("):\n".data).length = 3 := by decide
  have l7 : ("resume.pdf".data).length = 10 := by decide
  simp only [source_block, fixed_fmt, oversized_chunk, d1, List.length_append,
    List.length_replicate, l1, l2, l3, l4, l5, l6, l7, List.length_singleton]

theorem claim_C4_counterexample :
    context_parts fixed_fmt 4000 [oversized_chunk] = []
  ∧ build_context fixed_fmt 4000 [oversized_chunk] = []
  ∧ ([oversized_chunk] : List ChunkResult) ≠ [] := by
  have hparts : context_parts fixed_fmt 4000 [oversized_chunk] = [] := by
    simp only [context_parts, context_go, oversized_block_length]
    rw [if_pos (by norm_num)]
  exact ⟨hparts, by rw [build_context, hparts]; rfl, List.cons_ne_nil _ _⟩

/-- C4 (amended): context assembly walks the ranked candidates in order
and includes the top-ranked passage exactly when its serialized source
block fits the character budget on its own; when that first block already
exceeds the budget the loop breaks immediately and the assembled context
is empty even though a candidate exists. -/
theorem claim_C4_amended :
    ∀ (fmt_score : ℚ → List Char) (max_len : Nat) (r : ChunkResult) (rest : List ChunkResult),
    ((context_parts fmt_score max_len (r :: rest)).head? =
      (if (source_block fmt_score 1 r).length ≤ max_len then some (source_block fmt_score 1 r)
       else none))
  ∧ ((context_parts fmt_score max_len (r :: rest)).isEmpty =
      decide (max_len < (source_block fmt_score 1 r).length)) := by
  intro fmt_score max_len r rest
  constructor
  · simp only [context_parts, context_go, Nat.zero_add]
    by_cases h : (source_block fmt_score 1 r).length ≤ max_len
    · rw [if_neg (by omega), if_pos h]
      rfl
    · rw [if_pos (by omega), if_neg h]
      rfl
  · simp only [context_parts, context_go, Nat.zero_add]
    by_cases h : max_len < (source_block fmt_score 1 r).length
    · rw [if_pos h, decide_eq_true h]
      rfl
    · rw [if_neg h, decide_eq_false h]
      rfl

/-- C5 counterexample: the course-content text fallback of
`app/services/vector_search.py` assigns non-constant scores
(`1 - 1/(1+raw)` varies with the raw text score), and the constant 0.8 of
the regex fallback exceeds the normalized similarity 0.5 that a genuine
vector result can carry, so a fallback result can appear more confident
than a genuine vector result. -/
theorem claim_C5_counterexample :
    fallback_text_search (.ok [fallback_chunk]) 5 = [{ fallback_chunk with score := (0.8 : ℚ) }]
  ∧ normalize_score (1 / 2) = some (1 / 2)
  ∧ (1 / 2 : ℚ) < 0.8
  ∧ course_text_score 1 ≠ course_text_score 3 := by
  refine ⟨rfl, ?_, by norm_num, ?_⟩
  · rw [show normalize_score (1 / 2) = some (clamp01 (1 / 2)) from by norm_num [normalize_score]]
    rw [clamp01_of_mem _ (by norm_num) (by norm_num)]
  · norm_num [course_text_score]

/-- C5 (amended): the regex fallback of the document service assigns the
constant low-confidence score 0.8 to every match; every normalized vector
similarity and every course-fallback text score is at most 1, so a
fallback result never exceeds the maximum confidence a vector result can
carry, though it can exceed an individual vector result's score, and the
course-content text fallback assigns non-constant scores. -/
theorem claim_C5_amended :
    (∀ (db_matches : Except Unit (List ChunkResult)) (top_k : Nat),
      (fallback_text_search db_matches top_k).all (fun r => decide (r.score = (0.8 : ℚ))) = true)
  ∧ (∀ raw : ℚ, (normalize_score raw).all (fun sim => decide (sim ≤ 1)) = true)
  ∧ ((0.8 : ℚ) ≤ 1)
  ∧ (∀ raw : ℚ, course_text_score raw ≤ 1) := by
  refine ⟨?_, ?_, by norm_num, ?_⟩
  · intro db_matches top_k
    cases db_matches with
    | error e => rfl
    | ok ms =>
      rw [List.all_eq_true]
      intro r hr
      have hr2 := List.mem_of_mem_take (List.mem_of_mem_take hr)
      rcases List.mem_map.mp hr2 with ⟨m, _, rfl⟩
      simp
  · intro raw
    unfold normalize_score
    split_ifs
    · simp only [Option.all]
      exact decide_eq_true (clamp01_le_one _)
    · rfl
    · simp only [Option.all]
      exact decide_eq_true (clamp01_le_one _)
  · intro raw
    unfold course_text_score
    split_ifs with h
    · have h1 : (0 : ℚ) < 1 + raw := by linarith
      have h2 : (0 : ℚ) < 1 / (1 + raw) := by positivity
      linarith
    · norm_num

theorem cache_lookup_insert {π : Type} (k : List Char × Option (List Char) × Nat)
    (e : CacheEntry π) (m : List ((List Char × Option (List Char) × Nat) × CacheEntry π)) :
    cache_lookup k (cache_insert k e m) = some e := by
  simp [cache_insert, cache_lookup]

theorem cache_lookup_erase {π : Type} (k : List Char × Option (List Char) × Nat)
    (m : List ((List Char × Option (List Char) × Nat) × CacheEntry π)) :
    cache_lookup k (cache_erase k m) = none := by
  induction m with
  | nil => rfl
  | cons kv rest ih =>
    by_cases h : kv.1 = k
    · simpa [cache_erase, List.filter_cons, h] using ih
    · simpa [cache_erase, List.filter_cons, h, cache_lookup] using ih

/-- C9: with caching enabled and a nonnegative TTL, a `put` followed
immediately by a `get` with the same key returns the stored payload, and
once the elapsed time since the entry's timestamp exceeds the TTL the
`get` returns absent and has removed the entry from the internal store. -/
theorem claim_C9 {π : Type} (s : CacheServiceState π) (now later : ℚ) (query : List Char)
    (document_id : Option (List Char)) (top_k : Nat) (payload : π)
    (hen : s.enabled = true) (httl : 0 ≤ s.cache_ttl)
    (hexp : later - now > s.cache_ttl) :
    (get_search_results (set_search_results s now query document_id top_k payload) now
        query document_id top_k).1 = some payload
  ∧ (get_search_results (set_search_results s now query document_id top_k payload) later
        query document_id top_k).1 = none
  ∧ cache_lookup (cache_key query document_id top_k)
      ((get_search_results (set_search_results s now query document_id top_k payload) later
          query document_id top_k).2).cache = none := by
  have hset : set_search_results s now query document_id top_k payload =
      { s with cache := cache_insert (cache_key query document_id top_k) ⟨payload, now⟩ s.cache } := by
    simp [set_search_results, hen]
  have hfresh : is_expired now s.cache_ttl (⟨payload, now⟩ : CacheEntry π) = false := by
    simp only [is_expired]
    rw [decide_eq_false]
    intro h
    rw [sub_self] at h
    exact absurd httl (not_le.mpr h)
  have hstale : is_expired later s.cache_ttl (⟨payload, now⟩ : CacheEntry π) = true := by
    simp only [is_expired]
    exact decide_eq_true hexp
  refine ⟨?_, ?_, ?_⟩
  · rw [hset]
    simp [get_search_results, hen, cache_lookup_insert, hfresh]
  · rw [hset]
    simp [get_search_results, hen, cache_lookup_insert, hstale]
  · rw [hset]
    simp [get_search_results, hen, cache_lookup_insert, hstale, cache_lookup_erase]

/-- Witness for the C9 theorem: an enabled cache with TTL 60, a put at
time 0 and a get at times 0 and 61. -/
theorem claim_C9_witness :
    (small_cache_state.enabled = true ∧ 0 ≤ small_cache_state.cache_ttl ∧
      (61 : ℚ) - 0 > small_cache_state.cache_ttl)
  ∧ ((get_search_results (set_search_results small_cache_state 0 "query".data none 5 7) 0
        "query".data none 5).1 = some 7
    ∧ (get_search_results (set_search_results small_cache_state 0 "query".data none 5 7) 61
        "query".data none 5).1 = none
    ∧ cache_lookup (cache_key "query".data none 5)
        ((get_search_results (set_search_results small_cache_state 0 "query".data none 5 7) 61
            "query".data none 5).2).cache = none) := by
  have h1 : small_cache_state.enabled = true := rfl
  have h2 : (0 : ℚ) ≤ small_cache_state.cache_ttl := by norm_num [small_cache_state]
  have h3 : (61 : ℚ) - 0 > small_cache_state.cache_ttl := by norm_num [small_cache_state]
  exact ⟨⟨h1, h2, h3⟩, claim_C9 small_cache_state 0 61 "query".data none 5 7 h1 h2 h3⟩

/-- C10 counterexample: the query `what is the certificate score` contains
both `what is` and `certificate`, yet the rewrite leaves it unchanged (and
in particular does not produce `certificates`), because the first branch
of the `if/elif` chain captures it via `what is the` + `score` and none of
`aws`, `cgpa`, `leetcode` occurs. -/
theorem claim_C10_counterexample :
    py_contains "what is".data (py_lower "what is the certificate score".data) = true
  ∧ py_contains "certificate".data (py_lower "what is the certificate score".data) = true
  ∧ process_query "what is the certificate score".data = "what is the certificate score".data
  ∧ "what is the certificate score".data ≠ "certificates".data := by
  decide

theorem preprocess_aws (q : List Char)
    (h1 : py_contains "what is the".data (py_lower q) = true)
    (h2 : py_contains "score".data (py_lower q) = true)
    (h3 : py_contains "aws".data (py_lower q) = true) :
    preprocess_query q = "AWS score".data := by
  simp [preprocess_query, h1, h2, h3]

theorem preprocess_cgpa (q : List Char)
    (h1 : py_contains "what is the".data (py_lower q) = true)
    (h2 : py_contains "score".data (py_lower q) = true)
    (h3 : py_contains "aws".data (py_lower q) = false)
    (h4 : py_contains "cgpa".data (py_lower q) = true) :
    preprocess_query q = "CGPA".data := by
  simp [preprocess_query, h1, h2, h3, h4]

theorem preprocess_leetcode (q : List Char)
    (h1 : py_contains "what is the".data (py_lower q) = true)
    (h2 : py_contains "score".data (py_lower q) = true)
    (h3 : py_contains "aws".data (py_lower q) = false)
    (h4 : py_contains "cgpa".data (py_lower q) = false)
    (h5 : py_contains "leetcode".data (py_lower q) = true) :
    preprocess_query q = "Leetcode rating".data := by
  simp [preprocess_query, h1, h2, h3, h4, h5]

theorem preprocess_score_unchanged (q : List Char)
    (h1 : py_contains "what is the".data (py_lower q) = true)
    (h2 : py_contains "score".data (py_lower q) = true)
    (h3 : py_contains "aws".data (py_lower q) = false)
    (h4 : py_contains "cgpa".data (py_lower q) = false)
    (h5 : py_contains "leetcode".data (py_lower q) = false) :
    preprocess_query q = q := by
  simp [preprocess_query, h1, h2, h3, h4, h5]

theorem preprocess_certificate (q : List Char)
    (h0 : (py_contains "what is the".data (py_lower q) &&
      py_contains "score".data (py_lower q)) = false)
    (h1 : py_contains "what is".data (py_lower q) = true)
    (h2 : py_contains "certificate".data (py_lower q) = true) :
    preprocess_query q = "certificates".data := by
  simp only [preprocess_query, h0, Bool.false_eq_true, if_false, h1, h2, Bool.and_self, if_true]

theorem preprocess_linkedin (q : List Char)
    (h0 : (py_contains "what is the".data (py_lower q) &&
      py_contains "score".data (py_lower q)) = false)
    (h1 : py_contains "what is".data (py_lower q) = true)
    (h2 : py_contains "certificate".data (py_lower q) = false)
    (h3 : py_contains "linkedin".data (py_lower q) = true) :
    preprocess_query q = "LinkedIn".data := by
  simp [preprocess_query, h0, h1, h2, h3]

theorem preprocess_project (q : List Char)
    (h0 : (py_contains "what is the".data (py_lower q) &&
      py_contains "score".data (py_lower q)) = false)
    (h1 : py_contains "what is".data (py_lower q) = true)
    (h2 : py_contains "certificate".data (py_lower q) = false)
    (h3 : py_contains "linkedin".data (py_lower q) = false)
    (h4 : py_contains "project".data (py_lower q) = true) :
    preprocess_query q = "projects".data := by
  simp [preprocess_query, h0, h1, h2, h3, h4]

theorem preprocess_changed_not_general_knowledge (q : List Char)
    (h : preprocess_query q ≠ q) :
    is_general_knowledge_query (py_lower (preprocess_query q)) = false := by
  unfold preprocess_query at h ⊢
  split_ifs at h ⊢ <;> first | decide | exact absurd rfl h

/-- C10 (amended): the rewrite applies only the first matching branch of
the `if/elif` chain.  A query containing `what is the` and `score` is
rewritten to `AWS score`, `CGPA` or `Leetcode rating` only when it also
contains `aws`, `cgpa` or `leetcode` (checked in that order) and is
otherwise left unchanged even when it mentions certificate, linkedin or
project; only queries not captured by that first branch and containing
`what is` with `certificate`, `linkedin` or `project` (in that priority
order) become `certificates`, `LinkedIn` or `projects`.  Every query the
rewrite actually changes becomes one of six fixed keyword strings, none
of which contains a general-knowledge indicator, so the later
OUT_OF_CORPUS check cannot fire on a rewritten query. -/
theorem claim_C10_amended : ∀ q : List Char,
    (py_contains "what is the".data (py_lower q) = true →
      py_contains "score".data (py_lower q) = true →
      py_contains "aws".data (py_lower q) = true →
      preprocess_query q = "AWS score".data)
  ∧ (py_contains "what is the".data (py_lower q) = true →
      py_contains "score".data (py_lower q) = true →
      py_contains "aws".data (py_lower q) = false →
      py_contains "cgpa".data (py_lower q) = true →
      preprocess_query q = "CGPA".data)
  ∧ (py_contains "what is the".data (py_lower q) = true →
      py_contains "score".data (py_lower q) = true →
      py_contains "aws".data (py_lower q) = false →
      py_contains "cgpa".data (py_lower q) = false →
      py_contains "leetcode".data (py_lower q) = true →
      preprocess_query q = "Leetcode rating".data)
  ∧ (py_contains "what is the".data (py_lower q) = true →
      py_contains "score".data (py_lower q) = true →
      py_contains "aws".data (py_lower q) = false →
      py_contains "cgpa".data (py_lower q) = false →
      py_contains "leetcode".data (py_lower q) = false →
      preprocess_query q = q)
  ∧ ((py_contains "what is the".data (py_lower q) &&
        py_contains "score".data (py_lower q)) = false →
      py_contains "what is".data (py_lower q) = true →
      py_contains "certificate".data (py_lower q) = true →
      preprocess_query q = "certificates".data)
  ∧ ((py_contains "what is the".data (py_lower q) &&
        py_contains "score".data (py_lower q)) = false →
      py_contains "what is".data (py_lower q) = true →
      py_contains "certificate".data (py_lower q) = false →
      py_contains "linkedin".data (py_lower q) = true →
      preprocess_query q = "LinkedIn".data)
  ∧ ((py_contains "what is the".data (py_lower q) &&
        py_contains "score".data (py_lower q)) = false →
      py_contains "what is".data (py_lower q) = true →
      py_contains "certificate".data (py_lower q) = false →
      py_contains "linkedin".data (py_lower q) = false →
      py_contains "project".data (py_lower q) = true →
      preprocess_query q = "projects".data)
  ∧ (preprocess_query q ≠ q →
      is_general_knowledge_query (py_lower (preprocess_query q)) = false) := by
  intro q
  exact ⟨preprocess_aws q, preprocess_cgpa q, preprocess_leetcode q,
    preprocess_score_unchanged q, preprocess_certificate q, preprocess_linkedin q,
    preprocess_project q, preprocess_changed_not_general_knowledge q⟩

/-- Witness for the amended C10 theorem: the query `what is the aws score`
is rewritten to `AWS score`, which triggers no general-knowledge
indicator. -/
theorem claim_C10_witness :
    preprocess_query "what is the aws score".data = "AWS score".data
  ∧ is_general_knowledge_query (py_lower (preprocess_query "what is the aws score".data)) = false := by
  have h4 := (claim_C10_amended "what is the aws score".data).1
    (by decide) (by decide) (by decide)
  have h5 := (claim_C10_amended "what is the aws score".data).2.2.2.2.2.2.2
    (by decide)
  exact ⟨h4, h5⟩

/-- C2: the out-of-corpus short circuit is defeated in the code.  At the
concrete input below the query `define recursion` matches a
general-knowledge indicator and none of its words occurs in the retrieved
passage text, so the claim requires the fixed general-knowledge message
with no generator call; but because the out-of-corpus branch leaves
`response = None` (its initial value), the `if response is None` guard of
line 111 still fires, the generator is invoked, and its output replaces
the fixed message. -/
theorem claim_C2 :
    is_general_knowledge_query (py_lower (process_query "define recursion".data)) = true
  ∧ any_query_word_in_content (process_query "define recursion".data) [cooking_chunk] 5 = false
  ∧ out_of_corpus (process_query "define recursion".data) [cooking_chunk] 5 = true
  ∧ (document_chat_answer fixed_fmt fixed_gen "define recursion".data [cooking_chunk] 5
      4000).llm_called = true
  ∧ (document_chat_answer fixed_fmt fixed_gen "define recursion".data [cooking_chunk] 5
      4000).answer = "GENERATED ANSWER".data
  ∧ "GENERATED ANSWER".data ≠
      general_knowledge_answer (process_query "define recursion".data) := by
  decide

theorem word_char_not_whitespace (c : Char) (h : is_word_char c = true) :
    c.isWhitespace = false := by
  by_contra hw
  have hw' : c.isWhitespace = true := by
    revert hw
    cases c.isWhitespace <;> simp
  have hcases : c = ' ' ∨ c = '\t' ∨ c = '\r' ∨ c = '\n' := by
    revert hw'
    simp [Char.isWhitespace]
    tauto
  rcases hcases with h1 | h1 | h1 | h1 <;> subst h1 <;> exact absurd h (by decide)

theorem fix_word_ne_nil (w : List Char) (h : w ≠ []) : fix_word w ≠ [] := by
  unfold fix_word
  split_ifs <;> first | decide | exact h

theorem fix_word_all_word (w : List Char) (h : ∀ c ∈ w, is_word_char c = true) :
    ∀ c ∈ fix_word w, is_word_char c = true := by
  unfold fix_word
  split_ifs
  · exact fun c hc => (by decide : ∀ c ∈ "internship".data, is_word_char c = true) c hc
  · exact fun c hc => (by decide : ∀ c ∈ "internship".data, is_word_char c = true) c hc
  · exact fun c hc => (by decide : ∀ c ∈ "project".data, is_word_char c = true) c hc
  · exact h

theorem fix_word_idem (w : List Char) : fix_word (fix_word w) = fix_word w := by
  by_cases h1 : w.map Char.toLower = "intenship".data
  · rw [show fix_word w = "internship".data from by simp [fix_word, h1]]
    decide
  · by_cases h2 : w.map Char.toLower = "intership".data
    · rw [show fix_word w = "internship".data from by simp [fix_word, h1, h2]]
      decide
    · by_cases h3 : w.map Char.toLower = "proj".data ∨ w.map Char.toLower = "projs".data ∨
        w.map Char.toLower = "project".data ∨ w.map Char.toLower = "projects".data
      · rw [show fix_word w = "project".data from by simp [fix_word, h1, h2, h3]]
        decide
      · rw [show fix_word w = w from by simp [fix_word, h1, h2, h3]]
        rw [show fix_word w = w from by simp [fix_word, h1, h2, h3]]

theorem apply_fixes_go_congr : ∀ (n fuel1 fuel2 : Nat) (l : List Char),
    l.length ≤ n → l.length ≤ fuel1 → l.length ≤ fuel2 →
    apply_fixes_go fuel1 l = apply_fixes_go fuel2 l := by
  intro n
  induction n with
  | zero =>
    intro f1 f2 l hn _ _
    have hl : l = [] := List.length_eq_zero.mp (Nat.le_zero.mp hn)
    subst hl
    cases f1 <;> cases f2 <;> rfl
  | succ n ih =>
    intro f1 f2 l hn h1 h2
    cases l with
    | nil => cases f1 <;> cases f2 <;> rfl
    | cons c cs =>
      cases f1 with
      | zero => exact absurd h1 (by simp)
      | succ g1 =>
        cases f2 with
        | zero => exact absurd h2 (by simp)
        | succ g2 =>
          simp only [apply_fixes_go]
          have hlen : cs.length ≤ n := by
            simp only [List.length_cons] at hn
            omega
          have hg1 : cs.length ≤ g1 := by
            simp only [List.length_cons] at h1
            omega
          have hg2 : cs.length ≤ g2 := by
            simp only [List.length_cons] at h2
            omega
          have hdrop : (cs.dropWhile is_word_char).length ≤ cs.length :=
            (List.dropWhile_suffix is_word_char).length_le
          by_cases hw : is_word_char c = true
          · rw [if_pos hw, if_pos hw]
            rw [ih g1 g2 (cs.dropWhile is_word_char) (le_trans hdrop hlen)
              (le_trans hdrop hg1) (le_trans hdrop hg2)]
          · rw [if_neg hw, if_neg hw]
            rw [ih g1 g2 cs hlen hg1 hg2]

theorem apply_fixes_cons_of_not_word (c : Char) (cs : List Char)
    (h : is_word_char c = false) : apply_fixes (c :: cs) = c :: apply_fixes cs := by
  show apply_fixes_go (cs.length + 1) (c :: cs) = c :: apply_fixes_go cs.length cs
  simp only [apply_fixes_go]
  rw [if_neg (by simp [h])]

theorem apply_fixes_cons_of_word (c : Char) (cs : List Char)
    (h : is_word_char c = true) :
    apply_fixes (c :: cs) =
      fix_word (c :: cs.takeWhile is_word_char) ++ apply_fixes (cs.dropWhile is_word_char) := by
  show apply_fixes_go (cs.length + 1) (c :: cs) = _
  simp only [apply_fixes_go]
  rw [if_pos h]
  have hdrop : (cs.dropWhile is_word_char).length ≤ cs.length :=
    (List.dropWhile_suffix is_word_char).length_le
  rw [apply_fixes_go_congr cs.length cs.length (cs.dropWhile is_word_char).length
    (cs.dropWhile is_word_char) hdrop hdrop le_rfl]
  rfl

/-- Predicate: the head of the list, when present, fails `p`. -/
def head_fails (p : Char → Bool) (l : List Char) : Prop :=
  ∀ c, l.head? = some c → p c = false

/-- Predicate: the last element of the list, when present, fails `p`. -/
def last_fails (p : Char → Bool) (l : List Char) : Prop :=
  ∀ c, l.getLast? = some c → p c = false

theorem takeWhile_append_all (p : Char → Bool) :
    ∀ (l1 l2 : List Char), (∀ c ∈ l1, p c = true) →
    (l1 ++ l2).takeWhile p = l1 ++ l2.takeWhile p := by
  intro l1
  induction l1 with
  | nil => intro l2 _; rfl
  | cons a as ih =>
    intro l2 h
    rw [List.cons_append, List.takeWhile_cons, if_pos (h a (List.mem_cons_self a as)),
      List.cons_append, ih l2 (fun c hc => h c (List.mem_cons_of_mem a hc))]

theorem dropWhile_append_all (p : Char → Bool) :
    ∀ (l1 l2 : List Char), (∀ c ∈ l1, p c = true) →
    (l1 ++ l2).dropWhile p = l2.dropWhile p := by
  intro l1
  induction l1 with
  | nil => intro l2 _; rfl
  | cons a as ih =>
    intro l2 h
    rw [List.cons_append, List.dropWhile_cons, if_pos (h a (List.mem_cons_self a as)),
      ih l2 (fun c hc => h c (List.mem_cons_of_mem a hc))]

theorem takeWhile_eq_nil_of_head_fails (p : Char → Bool) (l : List Char)
    (h : head_fails p l) : l.takeWhile p = [] := by
  cases l with
  | nil => rfl
  | cons a as => rw [List.takeWhile_cons, if_neg (by simp [h a rfl])]

theorem dropWhile_eq_self_of_head_fails (p : Char → Bool) (l : List Char)
    (h : head_fails p l) : l.dropWhile p = l := by
  cases l with
  | nil => rfl
  | cons a as => rw [List.dropWhile_cons, if_neg (by simp [h a rfl])]

theorem dropWhile_head_fails (p : Char → Bool) :
    ∀ l : List Char, head_fails p (l.dropWhile p) := by
  intro l
  induction l with
  | nil => intro c h; simp at h
  | cons a as ih =>
    intro c h
    rw [List.dropWhile_cons] at h
    by_cases hp : p a = true
    · rw [if_pos hp] at h
      exact ih c h
    · rw [if_neg hp] at h
      simp only [List.head?_cons, Option.some.injEq] at h
      subst h
      exact Bool.eq_false_iff.mpr hp

theorem apply_fixes_wordrun (w r : List Char) (hw : w ≠ [])
    (hall : ∀ c ∈ w, is_word_char c = true) (hr : head_fails is_word_char r) :
    apply_fixes (w ++ r) = fix_word w ++ apply_fixes r := by
  cases w with
  | nil => exact absurd rfl hw
  | cons c wt =>
    rw [List.cons_append, apply_fixes_cons_of_word c (wt ++ r)
      (hall c (List.mem_cons_self c wt))]
    have htake : (wt ++ r).takeWhile is_word_char = wt := by
      rw [takeWhile_append_all is_word_char wt r
        (fun x hx => hall x (List.mem_cons_of_mem c hx))]
      rw [takeWhile_eq_nil_of_head_fails is_word_char r hr, List.append_nil]
    have hdrop : (wt ++ r).dropWhile is_word_char = r := by
      rw [dropWhile_append_all is_word_char wt r
        (fun x hx => hall x (List.mem_cons_of_mem c hx))]
      exact dropWhile_eq_self_of_head_fails is_word_char r hr
    rw [htake, hdrop]

theorem apply_fixes_head_fails_word (l : List Char) (h : head_fails is_word_char l) :
    head_fails is_word_char (apply_fixes l) := by
  cases l with
  | nil => intro c hc; simp [apply_fixes, apply_fixes_go] at hc
  | cons a as =>
    intro c hc
    rw [apply_fixes_cons_of_not_word a as (h a rfl)] at hc
    simp only [List.head?_cons, Option.some.injEq] at hc
    exact hc ▸ h a rfl

theorem apply_fixes_eq_nil_iff (l : List Char) : apply_fixes l = [] ↔ l = [] := by
  cases l with
  | nil => simp [apply_fixes, apply_fixes_go]
  | cons a as =>
    simp only [List.cons_ne_nil, iff_false]
    by_cases hw : is_word_char a = true
    · rw [apply_fixes_cons_of_word a as hw]
      intro hcontra
      rcases List.append_eq_nil.mp hcontra with ⟨h1, _⟩
      exact fix_word_ne_nil _ (List.cons_ne_nil a _) h1
    · rw [apply_fixes_cons_of_not_word a as (Bool.eq_false_iff.mpr hw)]
      exact List.cons_ne_nil a _

theorem apply_fixes_idem_aux : ∀ (n : Nat) (l : List Char), l.length ≤ n →
    apply_fixes (apply_fixes l) = apply_fixes l := by
  intro n
  induction n with
  | zero =>
    intro l h
    have hl : l = [] := List.length_eq_zero.mp (Nat.le_zero.mp h)
    subst hl
    rfl
  | succ n ih =>
    intro l h
    cases l with
    | nil => rfl
    | cons c cs =>
      have hlen : cs.length ≤ n := by
        simp only [List.length_cons] at h
        omega
      by_cases hw : is_word_char c = true
      · rw [apply_fixes_cons_of_word c cs hw]
        have hwne : (c :: cs.takeWhile is_word_char) ≠ [] := List.cons_ne_nil _ _
        have hwall : ∀ x ∈ c :: cs.takeWhile is_word_char, is_word_char x = true := by
          intro x hx
          rcases List.mem_cons.mp hx with rfl | hx'
          · exact hw
          · exact List.mem_takeWhile_imp hx'
        have hrh : head_fails is_word_char (cs.dropWhile is_word_char) :=
          dropWhile_head_fails is_word_char cs
        rw [apply_fixes_wordrun (fix_word (c :: cs.takeWhile is_word_char))
          (apply_fixes (cs.dropWhile is_word_char))
          (fix_word_ne_nil _ hwne) (fix_word_all_word _ hwall)
          (apply_fixes_head_fails_word _ hrh)]
        rw [fix_word_idem]
        have hdlen : (cs.dropWhile is_word_char).length ≤ n :=
          le_trans (List.dropWhile_suffix is_word_char).length_le hlen
        rw [ih (cs.dropWhile is_word_char) hdlen]
      · have hw' : is_word_char c = false := Bool.eq_false_iff.mpr hw
        rw [apply_fixes_cons_of_not_word c cs hw',
          apply_fixes_cons_of_not_word c (apply_fixes cs) hw', ih cs hlen]

theorem getLast?_of_suffix {x y : List Char} (hs : x <:+ y) (c : Char)
    (hc : x.getLast? = some c) : y.getLast? = some c := by
  rcases hs with ⟨a, rfl⟩
  rw [List.getLast?_append, hc, Option.or_some]

theorem last_fails_suffix (p : Char → Bool) {x y : List Char} (hs : x <:+ y)
    (h : last_fails p y) : last_fails p x :=
  fun c hc => h c (getLast?_of_suffix hs c hc)

theorem last_fails_of_cons (p : Char → Bool) (c : Char) (cs : List Char) (hne : cs ≠ [])
    (h : last_fails p (c :: cs)) : last_fails p cs := by
  intro d hd
  refine h d ?_
  cases cs with
  | nil => exact absurd rfl hne
  | cons x xs => rw [List.getLast?_cons_cons]; exact hd

theorem head_fails_py_strip (l : List Char) :
    head_fails Char.isWhitespace (py_strip l) := by
  intro c hc
  rw [py_strip, List.head?_reverse] at hc
  have hy := getLast?_of_suffix
    (List.dropWhile_suffix Char.isWhitespace
      (l := (l.dropWhile Char.isWhitespace).reverse)) c hc
  rw [List.getLast?_reverse] at hy
  exact dropWhile_head_fails Char.isWhitespace l c hy

theorem last_fails_py_strip (l : List Char) :
    last_fails Char.isWhitespace (py_strip l) := by
  intro c hc
  rw [py_strip, List.getLast?_reverse] at hc
  exact dropWhile_head_fails Char.isWhitespace _ c hc

theorem py_strip_eq_self (l : List Char) (h1 : head_fails Char.isWhitespace l)
    (h2 : last_fails Char.isWhitespace l) : py_strip l = l := by
  rw [py_strip, dropWhile_eq_self_of_head_fails Char.isWhitespace l h1,
    dropWhile_eq_self_of_head_fails Char.isWhitespace l.reverse
      (fun c hc => h2 c (by rw [List.head?_reverse] at hc; exact hc)),
    List.reverse_reverse]

theorem apply_fixes_head_fails_ws (l : List Char)
    (h : head_fails Char.isWhitespace l) :
    head_fails Char.isWhitespace (apply_fixes l) := by
  cases l with
  | nil => intro c hc; simp [apply_fixes, apply_fixes_go] at hc
  | cons a as =>
    intro c hc
    by_cases hw : is_word_char a = true
    · rw [apply_fixes_cons_of_word a as hw] at hc
      have hwall : ∀ x ∈ a :: as.takeWhile is_word_char, is_word_char x = true := by
        intro x hx
        rcases List.mem_cons.mp hx with rfl | hx'
        · exact hw
        · exact List.mem_takeWhile_imp hx'
      rcases List.exists_cons_of_ne_nil
        (fix_word_ne_nil (a :: as.takeWhile is_word_char) (List.cons_ne_nil _ _)) with
        ⟨d, ds, hfw⟩
      rw [hfw, List.cons_append, List.head?_cons, Option.some.injEq] at hc
      have hdmem : d ∈ fix_word (a :: as.takeWhile is_word_char) := by
        rw [hfw]; exact List.mem_cons_self d ds
      exact hc ▸ word_char_not_whitespace d (fix_word_all_word _ hwall d hdmem)
    · rw [apply_fixes_cons_of_not_word a as (Bool.eq_false_iff.mpr hw),
        List.head?_cons, Option.some.injEq] at hc
      exact hc ▸ h a rfl

theorem apply_fixes_last_fails_ws : ∀ (n : Nat) (l : List Char), l.length ≤ n →
    last_fails Char.isWhitespace l → last_fails Char.isWhitespace (apply_fixes l) := by
  intro n
  induction n with
  | zero =>
    intro l hn _
    have hl : l = [] := List.length_eq_zero.mp (Nat.le_zero.mp hn)
    subst hl
    intro c hc
    simp [apply_fixes, apply_fixes_go] at hc
  | succ n ih =>
    intro l hn h
    cases l with
    | nil => intro c hc; simp [apply_fixes, apply_fixes_go] at hc
    | cons c cs =>
      have hlen : cs.length ≤ n := by
        simp only [List.length_cons] at hn
        omega
      by_cases hw : is_word_char c = true
      · rw [apply_fixes_cons_of_word c cs hw]
        intro d hd
        rw [List.getLast?_append] at hd
        cases hR : (apply_fixes (cs.dropWhile is_word_char)).getLast? with
        | some e =>
          rw [hR, Option.or_some, Option.some.injEq] at hd
          have hr_last : last_fails Char.isWhitespace (cs.dropWhile is_word_char) :=
            last_fails_suffix Char.isWhitespace
              ((List.dropWhile_suffix is_word_char).trans (List.suffix_cons c cs)) h
          have hdlen : (cs.dropWhile is_word_char).length ≤ n :=
            le_trans (List.dropWhile_suffix is_word_char).length_le hlen
          exact hd ▸ ih (cs.dropWhile is_word_char) hdlen hr_last e hR
        | none =>
          rw [hR, Option.none_or] at hd
          have hwall : ∀ x ∈ c :: cs.takeWhile is_word_char, is_word_char x = true := by
            intro x hx
            rcases List.mem_cons.mp hx with rfl | hx'
            · exact hw
            · exact List.mem_takeWhile_imp hx'
          have hdmem : d ∈ fix_word (c :: cs.takeWhile is_word_char) :=
            List.mem_of_mem_getLast? (by rw [hd]; rfl)
          exact word_char_not_whitespace d (fix_word_all_word _ hwall d hdmem)
      · have hw' : is_word_char c = false := Bool.eq_false_iff.mpr hw
        rw [apply_fixes_cons_of_not_word c cs hw']
        intro d hd
        cases hR : apply_fixes cs with
        | nil =>
          rw [hR, List.getLast?_singleton, Option.some.injEq] at hd
          have hcs : cs = [] := (apply_fixes_eq_nil_iff cs).mp hR
          subst hcs
          exact hd ▸ h c rfl
        | cons e es =>
          rw [hR, List.getLast?_cons_cons] at hd
          have hcs_ne : cs ≠ [] := by
            intro hcontra
            rw [hcontra] at hR
            exact List.cons_ne_nil e es (by rw [← hR]; rfl)
          have hcs_last : last_fails Char.isWhitespace cs :=
            last_fails_of_cons Char.isWhitespace c cs hcs_ne h
          refine ih cs hlen hcs_last d ?_
          rw [hR]
          exact hd

/-- C8: the query normalizer is idempotent, it is a total function of the
input string by construction, and it maps the empty string to the empty
string. -/
theorem claim_C8 :
    (∀ x : List Char, normalize_query (normalize_query x) = normalize_query x)
  ∧ normalize_query [] = [] := by
  refine ⟨fun x => ?_, rfl⟩
  show apply_fixes (py_strip (apply_fixes (py_strip x))) = apply_fixes (py_strip x)
  have hh2 : head_fails Char.isWhitespace (apply_fixes (py_strip x)) :=
    apply_fixes_head_fails_ws (py_strip x) (head_fails_py_strip x)
  have hl2 : last_fails Char.isWhitespace (apply_fixes (py_strip x)) :=
    apply_fixes_last_fails_ws (py_strip x).length (py_strip x) le_rfl (last_fails_py_strip x)
  rw [py_strip_eq_self (apply_fixes (py_strip x)) hh2 hl2]
  exact apply_fixes_idem_aux (py_strip x).length (py_strip x) le_rfl
